import Mathlib

/-!
Verification of the scheduling core of `fluid-calendar`
(`src/services/scheduling/TimeSlotManager.ts`).

Instants are modelled as integers counting minutes, in the viewer's local
zone, with minute 0 falling on a Sunday at 00:00 local time.  The repo's
date utilities (`@/lib/date-utils`), the settings parsers
(`@/lib/autoSchedule`), the `CalendarService` and the `SlotScorer` are not
part of the scheduling source file; they are modelled from the
specification, as marked on each definition.  Timezone conversion is
modelled as the identity: all times in the development are already
expressed in the viewer's local zone, which is the only zone the
business rules ever consult.
-/

namespace Scheduling

/-- A busy interval reported by the calendar service (`Conflict` in
`@/types/scheduling`).  Its fields are never inspected by the scheduling
core, only its presence in a list. -/
structure Conflict where
  start : Int
  endT : Int
deriving DecidableEq, Repr

/-- The `TimeSlot` record of `@/types/scheduling`: a candidate interval with
its score, reported conflicts and the derived flags.  `endT` stands for the
source's `end` field. -/
structure TimeSlot where
  start : Int
  endT : Int
  score : Int
  conflicts : List Conflict
  energyLevel : Option Int
  isWithinWorkHours : Bool
  hasBufferTime : Bool
deriving DecidableEq, Repr

/-- The fields of the Prisma `Task` record that the scheduling core reads. -/
structure Task where
  id : Nat
  duration : Option Int
  projectId : Option Nat
  isAutoScheduled : Bool
  scheduledStart : Option Int
  scheduledEnd : Option Int
deriving DecidableEq, Repr

/-- The `AutoScheduleSettings` snapshot.  `workDays` and `selectedCalendars`
hold the already-decoded values of the stored encodings (decoding is done by
`parseWorkDays` / `parseSelectedCalendars`, modelled below). -/
structure AutoScheduleSettings where
  workHourStart : Int
  workHourEnd : Int
  workDays : List Int
  bufferMinutes : Int
  selectedCalendars : List Nat
deriving DecidableEq, Repr

/-- The default task duration in minutes (`DEFAULT_TASK_DURATION`). -/
def DEFAULT_TASK_DURATION : Int := 30

/-- The minimum lead buffer in minutes (`MINIMUM_BUFFER_MINUTES`). -/
def MINIMUM_BUFFER_MINUTES : Int := 15

/-- Modelled from the spec: the time-arithmetic utility `addMinutes` of
`@/lib/date-utils` (add/subtract minutes). -/
def addMinutes (t m : Int) : Int := t + m

/-- Modelled from the spec: the time-arithmetic utility `addDays` of
`@/lib/date-utils`. -/
def addDays (t d : Int) : Int := t + 1440 * d

/-- Modelled from the spec: the utility `setHours` of `@/lib/date-utils`,
which replaces the hour-of-day of a local instant, keeping its date and its
minute-of-hour. -/
def setHours (t h : Int) : Int := 1440 * (t / 1440) + 60 * h + t % 60

/-- Modelled from the spec: the utility `setMinutes` of `@/lib/date-utils`,
which replaces the minute-of-hour of a local instant. -/
def setMinutes (t m : Int) : Int := 60 * (t / 60) + m

/-- Modelled from the spec: the hour-of-day (0–23) of a local instant
(`Date.getHours`). -/
def getHours (t : Int) : Int := (t % 1440) / 60

/-- Modelled from the spec: the minute-of-hour of a local instant
(`Date.getMinutes`). -/
def getMinutes (t : Int) : Int := t % 60

/-- Modelled from the spec: weekday extraction, `getDay` of
`@/lib/date-utils` (weekday numbers 0–6, minute 0 of the model falling on a
Sunday, i.e. weekday 0). -/
def getDay (t : Int) : Int := (t / 1440) % 7

/-- The local calendar-day number of an instant. -/
def localDay (t : Int) : Int := t / 1440

/-- Modelled from the spec: equality of `Date.toDateString()` values, i.e.
whether two local instants fall on the same local calendar date. -/
def sameLocalDay (a b : Int) : Bool := localDay a == localDay b

/-- Modelled from the spec: zone conversion `toZonedTime` of
`@/lib/date-utils`.  All times of the development are already expressed in
the viewer's local zone, so the conversion is the identity. -/
def toZonedTime (t : Int) : Int := t

/-- Modelled from the spec: `roundDateUp` of `@/lib/date-utils` — ceiling to
the next 30-minute boundary, a no-op when already aligned. -/
def roundDateUp (t : Int) : Int :=
  if t % 30 == 0 then t else t + (30 - t % 30)

/-- Modelled from the spec: `differenceInHours` of `@/lib/date-utils`, the
difference of two instants measured in whole hours (truncated toward
zero). -/
def differenceInHours (a b : Int) : Int := (a - b).tdiv 60

/-- Modelled from the spec: `parseWorkDays` of `@/lib/autoSchedule`, which
decodes the stored work-day encoding into a list of weekday numbers
(malformed encodings decode to the empty list; the settings model carries
the decoded value). -/
def parseWorkDays (st : AutoScheduleSettings) : List Int := st.workDays

/-- Modelled from the spec: `parseSelectedCalendars` of
`@/lib/autoSchedule`, which decodes the stored calendar selection into a
list of calendar identifiers. -/
def parseSelectedCalendars (st : AutoScheduleSettings) : List Nat :=
  st.selectedCalendars

/-- The effective duration used by `findAvailableSlots`:
`task.duration || DEFAULT_TASK_DURATION`.  JavaScript `||` falls back
exactly when the left operand is falsy, i.e. when `duration` is absent or
zero; a negative duration is truthy and is kept. -/
def effectiveDuration (task : Task) : Int :=
  match task.duration with
  | none => DEFAULT_TASK_DURATION
  | some d => if d == 0 then DEFAULT_TASK_DURATION else d

/-- A freshly generated slot, as built inside the generation loop of
`generatePotentialSlots`: the given bounds, zero score, no conflicts, no
energy level, both flags false. -/
def mkSlot (s e : Int) : TimeSlot :=
  { start := s, endT := e, score := 0, conflicts := [], energyLevel := none,
    isWithinWorkHours := false, hasBufferTime := false }

/-- The slot-generation `while` loop of `generatePotentialSlots`, with an
explicit fuel: while the cursor is below the end bound, emit a slot of
`dur` minutes and advance the cursor by `dur`.  `none` models a run that
does not finish within the given fuel (with non-positive `dur` the source
loop never finishes at all). -/
def genLoop (dur endB : Int) : Nat → Int → Option (List TimeSlot)
  | 0, cur => if cur < endB then none else some []
  | fuel + 1, cur =>
    if cur < endB then
      match genLoop dur endB fuel (cur + dur) with
      | none => none
      | some rest => some (mkSlot cur (cur + dur) :: rest)
    else some []

/-- The generation start chosen by `generatePotentialSlots` before the
final rounding: on the current local date, the range start plus the
15-minute lead, pushed to the next calendar day at work-hour-start when the
buffered hour reaches `workHourEnd`; on a future date, the range start's
day at work-hour-start, minute 0. -/
def generationStart (st : AutoScheduleSettings) (localStartDate localNow : Int) : Int :=
  if sameLocalDay localStartDate localNow then
    let buffered := addMinutes localStartDate MINIMUM_BUFFER_MINUTES
    if getHours buffered ≥ st.workHourEnd then
      addDays (setMinutes (setHours buffered st.workHourStart) 0) 1
    else buffered
  else
    setMinutes (setHours localStartDate st.workHourStart) 0

/-- `generatePotentialSlots(duration, startDate, endDate)`: convert the
bounds to the viewer's zone, pick the generation start (with the same-day
lead-buffer rule), round start and end up to 30-minute boundaries, then run
the generation loop.  The fuel `(endR - startR).toNat` bounds the number of
iterations whenever the duration is at least one minute. -/
def generatePotentialSlots (st : AutoScheduleSettings) (now : Int)
    (duration startDate endDate : Int) : Option (List TimeSlot) :=
  let localStartDate := toZonedTime startDate
  let localEndDate := toZonedTime endDate
  let localNow := toZonedTime now
  let startR := roundDateUp (generationStart st localStartDate localNow)
  let endR := roundDateUp localEndDate
  genLoop duration endR (endR - startR).toNat startR

/-- The retention predicate of `filterByWorkHours`: local start weekday in
the configured work days, local start hour at least `workHourStart`, local
end hour at most `workHourEnd`, and local start hour strictly below
`workHourEnd`. -/
def workHourPred (st : AutoScheduleSettings) (slot : TimeSlot) : Bool :=
  let localStart := toZonedTime slot.start
  let localEnd := toZonedTime slot.endT
  let startHour := getHours localStart
  let endHour := getHours localEnd
  let dayOfWeek := getDay localStart
  let isWorkDay := (parseWorkDays st).contains dayOfWeek
  let isWithin := decide (startHour ≥ st.workHourStart) &&
    decide (endHour ≤ st.workHourEnd) && decide (startHour < st.workHourEnd)
  isWorkDay && isWithin

/-- `filterByWorkHours`: keep exactly the slots satisfying `workHourPred`,
setting `isWithinWorkHours := true` on each kept slot (the source mutates
the kept slot objects in place). -/
def filterByWorkHours (st : AutoScheduleSettings) (slots : List TimeSlot) :
    List TimeSlot :=
  (slots.filter (workHourPred st)).map
    (fun slot => { slot with isWithinWorkHours := true })

/-- The private method `isWithinWorkHours` of `TimeSlotManagerImpl`, used
for buffers and `isSlotAvailable`: same four conditions as the filter, with
an early `false` return on a non-work day. -/
def isWithinWorkHours (st : AutoScheduleSettings) (slot : TimeSlot) : Bool :=
  let localStart := toZonedTime slot.start
  let localEnd := toZonedTime slot.endT
  if !(parseWorkDays st).contains (getDay localStart) then false
  else
    decide (getHours localStart ≥ st.workHourStart) &&
      decide (getHours localEnd ≤ st.workHourEnd) &&
      decide (getHours localStart < st.workHourEnd)

/-- The pair returned by `calculateBufferTimes`. -/
structure BufferTimes where
  beforeBuffer : TimeSlot
  afterBuffer : TimeSlot
deriving DecidableEq, Repr

/-- `calculateBufferTimes(slot)`: a buffer of `bufferMinutes` immediately
before the slot and one immediately after, each carrying zero score, no
conflicts, no energy level, `hasBufferTime := false`, and
`isWithinWorkHours` computed by the work-hours rule on the buffer's own
interval. -/
def calculateBufferTimes (st : AutoScheduleSettings) (slot : TimeSlot) :
    BufferTimes :=
  let bufferMinutes := st.bufferMinutes
  { beforeBuffer :=
      { start := addMinutes slot.start (-bufferMinutes), endT := slot.start,
        score := 0, conflicts := [], energyLevel := none,
        isWithinWorkHours := isWithinWorkHours st
          { start := addMinutes slot.start (-bufferMinutes),
            endT := slot.start, score := 0, conflicts := [],
            energyLevel := none, isWithinWorkHours := false,
            hasBufferTime := false },
        hasBufferTime := false },
    afterBuffer :=
      { start := slot.endT, endT := addMinutes slot.endT bufferMinutes,
        score := 0, conflicts := [], energyLevel := none,
        isWithinWorkHours := isWithinWorkHours st
          { start := slot.endT, endT := addMinutes slot.endT bufferMinutes,
            score := 0, conflicts := [], energyLevel := none,
            isWithinWorkHours := false, hasBufferTime := false },
        hasBufferTime := false } }

/-- The pointwise conflict report of the calendar service: given a slot,
the selected calendar identifiers and the requesting task id, the ordered
list of overlapping busy intervals.  It parametrises the development, as
the calendar contents are external. -/
def ConflictReport : Type := TimeSlot → List Nat → Nat → List Conflict

/-- Modelled from the spec: `CalendarService.findBatchConflicts` — given a
list of `(slot, taskId)` pairs, the selected calendars and the requesting
task id, returns for each input slot its ordered list of overlapping busy
intervals (a parallel list). -/
def findBatchConflicts (report : ConflictReport)
    (slotsToCheck : List (TimeSlot × Nat)) (cals : List Nat) (taskId : Nat) :
    List (TimeSlot × List Conflict) :=
  slotsToCheck.map (fun p => (p.1, report p.1 cals taskId))

/-- `removeConflicts(slots, task)`: build the `(slot, taskId)` pairs, issue
one batched conflict query (unconditionally — the selected-calendar list is
computed but never tested for emptiness here), and keep exactly the slots
whose reported conflict list is empty.  The second component counts the
batched queries issued to the calendar service during the call. -/
def removeConflicts (report : ConflictReport) (st : AutoScheduleSettings)
    (slots : List TimeSlot) (task : Task) : List TimeSlot × Nat :=
  let selectedCalendars := parseSelectedCalendars st
  let slotsToCheck := slots.map (fun slot => (slot, task.id))
  let batchResults := findBatchConflicts report slotsToCheck selectedCalendars task.id
  (batchResults.filterMap
    (fun r => if r.2.isEmpty then some r.1 else none), 1)

/-- The private method `findCalendarConflicts` (used by `isSlotAvailable`):
when no calendars are selected the query is skipped and the empty list is
returned; otherwise one query is issued.  The second component counts the
queries issued. -/
def findCalendarConflicts (report : ConflictReport)
    (st : AutoScheduleSettings) (slot : TimeSlot) : List Conflict × Nat :=
  let selectedCalendars := parseSelectedCalendars st
  if selectedCalendars.isEmpty then ([], 0)
  else (report slot selectedCalendars 0, 1)

/-- `isSlotAvailable(slot)`: within work hours and no reported conflicts. -/
def isSlotAvailable (report : ConflictReport) (st : AutoScheduleSettings)
    (slot : TimeSlot) : Bool :=
  if !isWithinWorkHours st slot then false
  else (findCalendarConflicts report st slot).1.isEmpty

/-- `applyBufferTimes(slots)`: set `hasBufferTime` on every slot to whether
both of its buffers fall within work hours; no slot is added or removed. -/
def applyBufferTimes (st : AutoScheduleSettings) (slots : List TimeSlot) :
    List TimeSlot :=
  slots.map (fun slot =>
    let buffers := calculateBufferTimes st slot
    { slot with hasBufferTime :=
        buffers.beforeBuffer.isWithinWorkHours &&
          buffers.afterBuffer.isWithinWorkHours })

/-- Modelled from the spec: `SlotScorer.scoreSlot(slot, task).total` — the
baseline score is `-hoursSinceNow(slot.start)`, a deterministic function of
the slot, the task, the scheduled-task snapshot and the current instant. -/
def scoreSlot (now : Int) (_snapshot : List Task) (slot : TimeSlot)
    (_task : Task) : Int :=
  -(differenceInHours slot.start now)

/-- `scoreSlots(slots, task)`: copy each slot with its score overwritten by
the scorer's total. -/
def scoreSlots (now : Int) (snapshot : List Task) (slots : List TimeSlot)
    (task : Task) : List TimeSlot :=
  slots.map (fun slot =>
    { slot with score := scoreSlot now snapshot slot task })

/-- `sortByScore(slots)`: `[...slots].sort((a, b) => b.score - a.score)` —
a stable sort, descending by score. -/
def sortByScore (slots : List TimeSlot) : List TimeSlot :=
  slots.insertionSort (fun a b => b.score ≤ a.score)

/-- `updateScheduledTasks`: the tasks fed to the scorer — auto-scheduled,
with non-null scheduled start and end and a non-null project. -/
def fetchScheduled (store : List Task) : List Task :=
  store.filter (fun t =>
    t.isAutoScheduled && t.scheduledStart.isSome && t.scheduledEnd.isSome &&
      t.projectId.isSome)

/-- The result of one `findAvailableSlots` call: the returned slots (`none`
models a run whose generation loop never finishes), the number of batched
conflict queries issued, and the scorer's scheduled-task snapshot as left
by the call. -/
structure FindResult where
  slots : Option (List TimeSlot)
  queries : Nat
  scorerState : List Task
deriving DecidableEq, Repr

/-- The generation stage of a `findAvailableSlots` run. -/
def potentialSlotsOf (st : AutoScheduleSettings) (now : Int) (task : Task)
    (startDate endDate : Int) : Option (List TimeSlot) :=
  generatePotentialSlots st now (effectiveDuration task) startDate endDate

/-- The work-hour-filter stage of a `findAvailableSlots` run. -/
def workHourSlotsOf (st : AutoScheduleSettings) (now : Int) (task : Task)
    (startDate endDate : Int) : Option (List TimeSlot) :=
  (potentialSlotsOf st now task startDate endDate).map (filterByWorkHours st)

/-- `findAvailableSlots(task, startDate, endDate)`: refresh the scorer's
snapshot from the task store, generate potential slots, filter by work
hours, remove conflicting slots via one batched query, tag buffer
feasibility, score, and sort by score descending.  `scorerState` is the
incoming scorer snapshot, overwritten by the refresh before any use. -/
def findAvailableSlots (report : ConflictReport) (st : AutoScheduleSettings)
    (now : Int) (store : List Task) (_scorerState : List Task) (task : Task)
    (startDate endDate : Int) : FindResult :=
  let scheduled := fetchScheduled store
  match workHourSlotsOf st now task startDate endDate with
  | none => { slots := none, queries := 0, scorerState := scheduled }
  | some workHourSlots =>
    let removed := removeConflicts report st workHourSlots task
    let slotsWithBuffer := applyBufferTimes st removed.1
    let scoredSlots := scoreSlots now scheduled slotsWithBuffer task
    { slots := some (sortByScore scoredSlots),
      queries := removed.2,
      scorerState := scheduled }

/-! Helper lemmas about the generation loop. -/

/-- With a duration of at least one minute, the generation loop finishes
within `(endB - cur).toNat` iterations. -/
theorem genLoop_isSome (dur endB : Int) (hdur : 1 ≤ dur) :
    ∀ (fuel : Nat) (cur : Int), (endB - cur).toNat ≤ fuel →
      (genLoop dur endB fuel cur).isSome = true := by
  intro fuel
  induction fuel with
  | zero =>
    intro cur h
    have hc : ¬ cur < endB := by omega
    simp [genLoop, hc]
  | succ n ih =>
    intro cur h
    by_cases hc : cur < endB
    · have := ih (cur + dur) (by omega)
      cases hg : genLoop dur endB n (cur + dur) with
      | none => rw [hg] at this; simp at this
      | some rest => simp [genLoop, hc, hg]
    · simp [genLoop, hc]

/-- With a non-positive duration and a cursor strictly below the end bound,
the generation loop does not finish within any fuel. -/
theorem genLoop_none_of_nonpos (dur endB : Int) (hdur : dur ≤ 0) :
    ∀ (fuel : Nat) (cur : Int), cur < endB →
      genLoop dur endB fuel cur = none := by
  intro fuel
  induction fuel with
  | zero => intro cur hc; simp [genLoop, hc]
  | succ n ih =>
    intro cur hc
    simp only [genLoop, if_pos hc]
    rw [ih (cur + dur) (by omega)]

/-- A completed run of the loop with a non-positive duration produced no
slot (it can only complete when the cursor already reached the bound). -/
theorem genLoop_some_nonpos (dur endB : Int) (hdur : dur ≤ 0)
    (fuel : Nat) (cur : Int) (l : List TimeSlot)
    (h : genLoop dur endB fuel cur = some l) : l = [] := by
  by_cases hc : cur < endB
  · rw [genLoop_none_of_nonpos dur endB hdur fuel cur hc] at h
    cases h
  · cases fuel with
    | zero => simp [genLoop, hc] at h; exact h
    | succ n => simp [genLoop, hc] at h; exact h

/-- Every slot produced by the loop starts at or after the cursor and ends
exactly `dur` minutes after its start. -/
theorem genLoop_mem (dur endB : Int) (hdur : 1 ≤ dur) :
    ∀ (fuel : Nat) (cur : Int) (l : List TimeSlot),
      genLoop dur endB fuel cur = some l →
      ∀ s ∈ l, cur ≤ s.start ∧ s.endT = s.start + dur := by
  intro fuel
  induction fuel with
  | zero =>
    intro cur l h s hs
    by_cases hc : cur < endB
    · simp [genLoop, hc] at h
    · simp [genLoop, hc] at h
      subst h
      simp at hs
  | succ n ih =>
    intro cur l h s hs
    by_cases hc : cur < endB
    · simp only [genLoop, if_pos hc] at h
      cases hg : genLoop dur endB n (cur + dur) with
      | none => rw [hg] at h; cases h
      | some rest =>
        rw [hg] at h
        cases h
        rcases List.mem_cons.mp hs with hs | hs
        · subst hs; simp [mkSlot]
        · have := ih (cur + dur) rest hg s hs
          exact ⟨by omega, this.2⟩
    · simp [genLoop, hc] at h
      subst h
      simp at hs

/-- The slots produced by one completed run of the loop have strictly
increasing start instants. -/
theorem genLoop_pairwise (dur endB : Int) :
    ∀ (fuel : Nat) (cur : Int) (l : List TimeSlot),
      genLoop dur endB fuel cur = some l →
      l.Pairwise (fun a b => a.start < b.start) := by
  rcases le_or_lt dur 0 with hdur | hdur
  · intro fuel cur l h
    rw [genLoop_some_nonpos dur endB hdur fuel cur l h]
    exact List.Pairwise.nil
  · have hdur' : 1 ≤ dur := hdur
    intro fuel
    induction fuel with
    | zero =>
      intro cur l h
      by_cases hc : cur < endB
      · simp [genLoop, hc] at h
      · simp [genLoop, hc] at h
        subst h
        exact List.Pairwise.nil
    | succ n ih =>
      intro cur l h
      by_cases hc : cur < endB
      · simp only [genLoop, if_pos hc] at h
        cases hg : genLoop dur endB n (cur + dur) with
        | none => rw [hg] at h; cases h
        | some rest =>
          rw [hg] at h
          cases h
          refine List.Pairwise.cons ?_ (ih (cur + dur) rest hg)
          intro b hb
          have := genLoop_mem dur endB hdur' n (cur + dur) rest hg b hb
          simp only [mkSlot]
          omega
      · simp [genLoop, hc] at h
        subst h
        exact List.Pairwise.nil

/-- When the cursor is strictly below the bound, a completed run of the
loop starts with the slot `[cur, cur + dur)`. -/
theorem genLoop_head (dur endB : Int) (fuel : Nat) (cur : Int)
    (l : List TimeSlot) (hc : cur < endB)
    (h : genLoop dur endB fuel cur = some l) :
    ∃ rest, l = mkSlot cur (cur + dur) :: rest := by
  cases fuel with
  | zero => simp [genLoop, hc] at h
  | succ n =>
    simp only [genLoop, if_pos hc] at h
    cases hg : genLoop dur endB n (cur + dur) with
    | none => rw [hg] at h; cases h
    | some rest =>
      rw [hg] at h
      cases h
      exact ⟨rest, rfl⟩

/-! Helper lemmas about the pipeline stages. -/

/-- The retention predicate of the work-hour filter, spelled out. -/
theorem workHourPred_iff (st : AutoScheduleSettings) (s : TimeSlot) :
    workHourPred st s = true ↔
      getDay (toZonedTime s.start) ∈ parseWorkDays st ∧
      st.workHourStart ≤ getHours (toZonedTime s.start) ∧
      getHours (toZonedTime s.endT) ≤ st.workHourEnd ∧
      getHours (toZonedTime s.start) < st.workHourEnd := by
  simp [workHourPred, List.elem_iff, and_assoc, ge_iff_le]

/-- Membership in the output of the work-hour filter. -/
theorem mem_filterByWorkHours (st : AutoScheduleSettings)
    (slots : List TimeSlot) (r : TimeSlot) :
    r ∈ filterByWorkHours st slots ↔
      ∃ s, s ∈ slots ∧ workHourPred st s = true ∧
        r = { s with isWithinWorkHours := true } := by
  simp only [filterByWorkHours, List.mem_map, List.mem_filter]
  constructor
  · rintro ⟨s, ⟨hs, hp⟩, hr⟩
    exact ⟨s, hs, hp, hr.symm⟩
  · rintro ⟨s, hs, hp, hr⟩
    exact ⟨s, ⟨hs, hp⟩, hr.symm⟩

/-- A `filterMap` with an `if`-guard that keeps its input is a `filter`. -/
theorem filterMap_guard_eq_filter {α : Type} (p : α → Bool) (l : List α) :
    l.filterMap (fun a => if p a then some a else none) = l.filter p := by
  induction l with
  | nil => rfl
  | cons a t ih =>
    by_cases hp : p a <;> simp [List.filterMap_cons, List.filter_cons, hp, ih]

/-- The slots kept by `removeConflicts` are exactly the input slots for
which the service reports no conflict. -/
theorem removeConflicts_fst (report : ConflictReport)
    (st : AutoScheduleSettings) (slots : List TimeSlot) (task : Task) :
    (removeConflicts report st slots task).1 =
      slots.filter
        (fun s => (report s (parseSelectedCalendars st) task.id).isEmpty) := by
  simp only [removeConflicts, findBatchConflicts, List.map_map,
    List.filterMap_map]
  rw [← filterMap_guard_eq_filter
    (fun s => (report s (parseSelectedCalendars st) task.id).isEmpty) slots]
  rfl

/-- `removeConflicts` issues exactly one batched query, whatever the
selected calendars are. -/
theorem removeConflicts_queries (report : ConflictReport)
    (st : AutoScheduleSettings) (slots : List TimeSlot) (task : Task) :
    (removeConflicts report st slots task).2 = 1 := rfl

/-- The slots returned by one `findAvailableSlots` call, expressed as the
composition of the pipeline stages. -/
theorem findAvailableSlots_slots_eq (report : ConflictReport)
    (st : AutoScheduleSettings) (now : Int) (store s0 : List Task)
    (task : Task) (startDate endDate : Int) :
    (findAvailableSlots report st now store s0 task startDate endDate).slots =
      (workHourSlotsOf st now task startDate endDate).map
        (fun w => sortByScore (scoreSlots now (fetchScheduled store)
          (applyBufferTimes st (removeConflicts report st w task).1) task)) := by
  unfold findAvailableSlots
  cases h : workHourSlotsOf st now task startDate endDate <;> simp [h]

/-- Elements of the sorted output come from the scored list and conversely. -/
theorem mem_sortByScore (slots : List TimeSlot) (r : TimeSlot) :
    r ∈ sortByScore slots ↔ r ∈ slots := List.mem_insertionSort _

/-- Every slot of the final output of `findAvailableSlots` is a
flag-and-score update of a work-hour slot whose reported conflict list is
empty; in particular its bounds are the bounds of such a slot. -/
theorem mem_find_slots (report : ConflictReport) (st : AutoScheduleSettings)
    (now : Int) (store s0 : List Task) (task : Task) (startDate endDate : Int)
    (l : List TimeSlot) (r : TimeSlot)
    (hfind : (findAvailableSlots report st now store s0 task startDate endDate).slots = some l)
    (hr : r ∈ l) :
    ∃ w, workHourSlotsOf st now task startDate endDate = some w ∧
      ∃ u, u ∈ w ∧ report u (parseSelectedCalendars st) task.id = [] ∧
        r.start = u.start ∧ r.endT = u.endT := by
  rw [findAvailableSlots_slots_eq] at hfind
  rcases Option.map_eq_some'.mp hfind with ⟨w, hw, hl⟩
  refine ⟨w, hw, ?_⟩
  subst hl
  rw [mem_sortByScore] at hr
  simp only [scoreSlots, List.mem_map] at hr
  rcases hr with ⟨v, hv, hrv⟩
  simp only [applyBufferTimes, List.mem_map] at hv
  rcases hv with ⟨u, hu, hvu⟩
  rw [removeConflicts_fst] at hu
  rcases List.mem_filter.mp hu with ⟨huw, hemp⟩
  refine ⟨u, huw, List.isEmpty_iff.mp hemp, ?_, ?_⟩ <;>
    subst hrv <;> subst hvu <;> rfl

/-- Every slot of the generation stage ends exactly `dur` minutes after it
starts. -/
theorem potential_endT (st : AutoScheduleSettings) (now dur startDate endDate : Int)
    (hdur : 1 ≤ dur) (l : List TimeSlot)
    (h : generatePotentialSlots st now dur startDate endDate = some l) :
    ∀ s ∈ l, s.endT = s.start + dur := by
  intro s hs
  exact (genLoop_mem dur _ hdur _ _ l h s hs).2

/-- The generation stage produces slots with strictly increasing starts. -/
theorem potential_pairwise (st : AutoScheduleSettings)
    (now dur startDate endDate : Int) (l : List TimeSlot)
    (h : generatePotentialSlots st now dur startDate endDate = some l) :
    l.Pairwise (fun a b => a.start < b.start) := by
  exact genLoop_pairwise dur _ _ _ l h

/-- The work-hour stage keeps the strictly increasing starts of the
generation stage. -/
theorem workHourSlots_pairwise (st : AutoScheduleSettings)
    (now : Int) (task : Task) (startDate endDate : Int) (w : List TimeSlot)
    (h : workHourSlotsOf st now task startDate endDate = some w) :
    w.Pairwise (fun a b => a.start < b.start) := by
  rcases Option.map_eq_some'.mp h with ⟨p, hp, hw⟩
  subst hw
  have hpair := potential_pairwise st now _ startDate endDate p hp
  unfold filterByWorkHours
  rw [List.pairwise_map]
  exact ((hpair.sublist (List.filter_sublist p)).imp (fun h => h) :)

/-- In a list whose starts strictly increase, two members sharing a start
instant are the same slot. -/
theorem eq_of_pairwise_start {l : List TimeSlot} {a b : TimeSlot}
    (hp : l.Pairwise (fun a b => a.start < b.start))
    (ha : a ∈ l) (hb : b ∈ l) (hab : a.start = b.start) : a = b := by
  induction l with
  | nil => cases ha
  | cons x t ih =>
    rcases List.pairwise_cons.mp hp with ⟨hx, ht⟩
    rcases List.mem_cons.mp ha with ha' | ha' <;>
      rcases List.mem_cons.mp hb with hb' | hb'
    · rw [ha', hb']
    · subst ha'; have := hx b hb'; omega
    · subst hb'; have := hx a ha'; omega
    · exact ih ht ha' hb'

/-- The work-hour stage decomposed: its input is the generation stage. -/
theorem workHourSlotsOf_eq (st : AutoScheduleSettings) (now : Int)
    (task : Task) (startDate endDate : Int) (w : List TimeSlot)
    (h : workHourSlotsOf st now task startDate endDate = some w) :
    ∃ p, potentialSlotsOf st now task startDate endDate = some p ∧
      w = filterByWorkHours st p := by
  rcases Option.map_eq_some'.mp h with ⟨p, hp, hw⟩
  exact ⟨p, hp, hw.symm⟩

/-- Every work-hour slot ends exactly the effective duration after its
start. -/
theorem mem_workHour_bounds (st : AutoScheduleSettings) (now : Int)
    (task : Task) (startDate endDate : Int) (w : List TimeSlot) (u : TimeSlot)
    (hw : workHourSlotsOf st now task startDate endDate = some w)
    (hu : u ∈ w) (hdur : 1 ≤ effectiveDuration task) :
    u.endT = u.start + effectiveDuration task := by
  rcases workHourSlotsOf_eq st now task startDate endDate w hw with ⟨p, hp, hwp⟩
  subst hwp
  rcases (mem_filterByWorkHours st p u).mp hu with ⟨s, hs, _, hus⟩
  have := potential_endT st now (effectiveDuration task) startDate endDate hdur p hp s hs
  subst hus
  exact this

/-- A map that keeps the start instants keeps their strict increase. -/
theorem pairwise_start_map (f : TimeSlot → TimeSlot) (l : List TimeSlot)
    (hf : ∀ x, (f x).start = x.start)
    (hl : l.Pairwise (fun a b => a.start < b.start)) :
    (l.map f).Pairwise (fun a b => a.start < b.start) := by
  rw [List.pairwise_map]
  refine hl.imp ?_
  intro a b hab
  rw [hf a, hf b]
  exact hab

/-- When the rounded generation start sits strictly below the rounded end
bound, the first generated slot starts exactly there. -/
theorem generate_head (st : AutoScheduleSettings)
    (now dur startDate endDate : Int) (hdur : 1 ≤ dur) (r : Int)
    (hr : roundDateUp (generationStart st (toZonedTime startDate) (toZonedTime now)) = r)
    (hlt : r < roundDateUp (toZonedTime endDate)) :
    ∃ rest, generatePotentialSlots st now dur startDate endDate =
      some (mkSlot r (r + dur) :: rest) := by
  have hsome := genLoop_isSome dur (roundDateUp (toZonedTime endDate)) hdur
    ((roundDateUp (toZonedTime endDate)) - r).toNat r (le_refl _)
  obtain ⟨l, hl⟩ := Option.isSome_iff_exists.mp hsome
  obtain ⟨rest, hrest⟩ := genLoop_head dur _ _ r l hlt hl
  refine ⟨rest, ?_⟩
  simp only [generatePotentialSlots]
  rw [hr, hl, hrest]

/-! The claims. -/

/-- C1, counterexample: with an empty decoded `selectedCalendars`, the
conflict-removal stage still issues its batched query (the count is 1, not
0), and a slot for which the service reports a conflict is still removed —
the claim's conjunction fails at this concrete input. -/
theorem C1_counterexample :
    parseSelectedCalendars ⟨9, 17, [0], 15, []⟩ = [] ∧
    ¬((removeConflicts (fun _ _ _ => [⟨0, 30⟩]) ⟨9, 17, [0], 15, []⟩
          [mkSlot 570 600] ⟨1, some 30, none, false, none, none⟩).2 = 0 ∧
      (removeConflicts (fun _ _ _ => [⟨0, 30⟩]) ⟨9, 17, [0], 15, []⟩
          [mkSlot 570 600] ⟨1, some 30, none, false, none, none⟩).1 =
        [mkSlot 570 600]) := by
  refine ⟨rfl, fun h => ?_⟩
  exact absurd h.1 (by decide)

/-- C1, amended: `removeConflicts` issues exactly one batched conflict
query per call, whatever the selected-calendar list decodes to; a slot
passes to the next stage unchanged exactly when the service reports an
empty conflict list for it.  (By contrast `findCalendarConflicts`, the
path used by `isSlotAvailable`, does skip the query and reports no
conflict when no calendars are selected.) -/
theorem C1_amended_batch_query_unconditional (report : ConflictReport)
    (st : AutoScheduleSettings) (slots : List TimeSlot) (task : Task)
    (slot : TimeSlot) :
    (removeConflicts report st slots task).2 = 1 ∧
    (removeConflicts report st slots task).1 =
      slots.filter
        (fun s => (report s (parseSelectedCalendars st) task.id).isEmpty) ∧
    (parseSelectedCalendars st = [] →
      findCalendarConflicts report st slot = ([], 0)) := by
  refine ⟨rfl, removeConflicts_fst report st slots task, fun h => ?_⟩
  simp [findCalendarConflicts, h]

/-- C1, witness for the amended statement at a concrete input with no
selected calendars. -/
theorem C1_witness :
    (removeConflicts (fun _ _ _ => []) ⟨9, 17, [0], 15, []⟩ [mkSlot 570 600]
        ⟨1, some 30, none, false, none, none⟩).2 = 1 ∧
    findCalendarConflicts (fun _ _ _ => []) ⟨9, 17, [0], 15, []⟩
        (mkSlot 570 600) = ([], 0) :=
  ⟨(C1_amended_batch_query_unconditional (fun _ _ _ => []) ⟨9, 17, [0], 15, []⟩
      [mkSlot 570 600] ⟨1, some 30, none, false, none, none⟩ (mkSlot 570 600)).1,
   (C1_amended_batch_query_unconditional (fun _ _ _ => []) ⟨9, 17, [0], 15, []⟩
      [mkSlot 570 600] ⟨1, some 30, none, false, none, none⟩
      (mkSlot 570 600)).2.2 rfl⟩

/-- C2, counterexample: with the range starting at local midnight (minute
0) and "now" at 09:00 local (minute 540) on the same local date, the first
generated slot starts at 00:30 local (minute 30) — not at the claimed
`roundDateUp(now + 15 min)` = 09:30 local (minute 570): the lead buffer is
added to the range start, not to the current instant. -/
theorem C2_counterexample :
    sameLocalDay 0 540 = true ∧
    ((generatePotentialSlots ⟨9, 17, [0, 1, 2, 3, 4, 5, 6], 15, []⟩
        540 30 0 1020).bind List.head?) = some (mkSlot 30 60) ∧
    (mkSlot 30 60).start ≠
      roundDateUp (addMinutes 540 MINIMUM_BUFFER_MINUTES) := by
  decide

/-- C2, amended: when the local date of the range start equals the local
current date (and the buffered hour stays below the work-hour end), the
generation start is the RANGE START plus the 15-minute lead, rounded up to
the next 30-minute boundary; when the range start coincides with the
current instant this agrees with the claim's 09:00 → 09:30 example. -/
theorem C2_amended_lead_from_range_start (st : AutoScheduleSettings)
    (now startDate endDate dur : Int)
    (hday : sameLocalDay startDate now = true)
    (hhour : getHours (addMinutes startDate MINIMUM_BUFFER_MINUTES) < st.workHourEnd)
    (hdur : 1 ≤ dur)
    (hlt : roundDateUp (addMinutes startDate MINIMUM_BUFFER_MINUTES) <
      roundDateUp endDate) :
    ∃ rest, generatePotentialSlots st now dur startDate endDate =
      some (mkSlot (roundDateUp (addMinutes startDate MINIMUM_BUFFER_MINUTES))
        (roundDateUp (addMinutes startDate MINIMUM_BUFFER_MINUTES) + dur) ::
          rest) := by
  have hgs : generationStart st (toZonedTime startDate) (toZonedTime now) =
      addMinutes startDate MINIMUM_BUFFER_MINUTES := by
    unfold generationStart toZonedTime
    rw [if_pos hday, if_neg (not_le.mpr hhour)]
  exact generate_head st now dur startDate endDate hdur _
    (by rw [hgs]) hlt

/-- C2, witness: range start = now = 09:00 local on a Sunday, work hours
9–17, 30-minute duration — the first generated slot starts at 09:30 local
(minute 570), not 09:00. -/
theorem C2_witness :
    ∃ rest, generatePotentialSlots ⟨9, 17, [0, 1, 2, 3, 4, 5, 6], 15, []⟩
        540 30 540 660 = some (mkSlot 570 600 :: rest) := by
  obtain ⟨rest, hrest⟩ := C2_amended_lead_from_range_start
    ⟨9, 17, [0, 1, 2, 3, 4, 5, 6], 15, []⟩ 540 540 660 30
    (by decide) (by decide) (by decide) (by decide)
  refine ⟨rest, ?_⟩
  rw [hrest]
  norm_num [show roundDateUp (addMinutes 540 MINIMUM_BUFFER_MINUTES) = 570 from by decide]

/-- C4: with a strictly positive duration the slot-generation loop always
finishes (the cursor strictly increases by the duration each step until it
reaches the rounded end bound, so the fuel `(end - start).toNat` chosen by
the model suffices); positivity is necessary — with any non-positive
duration and a cursor below the bound, no amount of fuel makes the loop
finish. -/
theorem C4_generation_terminates :
    (∀ (st : AutoScheduleSettings) (now dur startDate endDate : Int),
      1 ≤ dur →
      (generatePotentialSlots st now dur startDate endDate).isSome = true) ∧
    (∀ (dur endB cur : Int), dur ≤ 0 → cur < endB →
      ∀ fuel : Nat, genLoop dur endB fuel cur = none) := by
  constructor
  · intro st now dur startDate endDate hdur
    simp only [generatePotentialSlots]
    exact genLoop_isSome dur _ hdur _ _ (le_refl _)
  · intro dur endB cur h1 h2 fuel
    exact genLoop_none_of_nonpos dur endB h1 fuel cur h2

/-- C4, witness: a 30-minute duration generates successfully on a concrete
range, while a −30-minute duration never finishes (fuel 5 shown). -/
theorem C4_witness :
    (generatePotentialSlots ⟨9, 17, [0, 1, 2, 3, 4, 5, 6], 15, []⟩
        540 30 540 660).isSome = true ∧
    genLoop (-30) 30 5 0 = none :=
  ⟨C4_generation_terminates.1 ⟨9, 17, [0, 1, 2, 3, 4, 5, 6], 15, []⟩
      540 30 540 660 (by decide),
   C4_generation_terminates.2 (-30) 30 0 (by decide) (by decide) 5⟩

/-- C3, counterexample: a task with duration −30 is NOT replaced by the
default of 30 (JavaScript `||` only catches falsy values, i.e. absent or
zero), and on a concrete range the call produces no slot list at all (the
generation loop never finishes) instead of slots of 30 minutes. -/
theorem C3_counterexample :
    effectiveDuration ⟨1, some (-30), none, false, none, none⟩ = -30 ∧
    effectiveDuration ⟨1, some (-30), none, false, none, none⟩ ≠
      DEFAULT_TASK_DURATION ∧
    (findAvailableSlots (fun _ _ _ => []) ⟨9, 17, [0, 1, 2, 3, 4, 5, 6], 15, []⟩
        540 [] [] ⟨1, some (-30), none, false, none, none⟩ 540 660).slots =
      none := by
  decide

/-- C3, amended: an unset or ZERO duration is replaced by the default of
30 minutes, while any other duration (negative ones included) is kept; and
whenever the effective duration is at least one minute, every slot returned
by `findAvailableSlots` satisfies `start < end` and
`end - start = effective duration`. -/
theorem C3_amended_slot_duration :
    (∀ task : Task, task.duration = none ∨ task.duration = some 0 →
      effectiveDuration task = DEFAULT_TASK_DURATION) ∧
    (∀ (task : Task) (d : Int), task.duration = some d → d ≠ 0 →
      effectiveDuration task = d) ∧
    (∀ (report : ConflictReport) (st : AutoScheduleSettings) (now : Int)
      (store s0 : List Task) (task : Task) (startDate endDate : Int)
      (l : List TimeSlot), 1 ≤ effectiveDuration task →
      (findAvailableSlots report st now store s0 task startDate endDate).slots =
        some l →
      ∀ r ∈ l, r.start < r.endT ∧
        r.endT - r.start = effectiveDuration task) := by
  refine ⟨?_, ?_, ?_⟩
  · rintro task (h | h) <;> simp [effectiveDuration, h, DEFAULT_TASK_DURATION]
  · intro task d h hd
    simp [effectiveDuration, h, hd]
  · intro report st now store s0 task startDate endDate l hdur hfind r hr
    rcases mem_find_slots report st now store s0 task startDate endDate l r
      hfind hr with ⟨w, hw, u, hu, _, hb1, hb2⟩
    have := mem_workHour_bounds st now task startDate endDate w u hw hu hdur
    constructor
    · rw [hb1, hb2, this]; omega
    · rw [hb1, hb2, this]; omega

/-- C3, witness: for a 30-minute task on a concrete range, the top-ranked
returned slot spans exactly 30 minutes. -/
theorem C3_witness :
    ({ start := 570, endT := 600, score := 0, conflicts := [],
       energyLevel := none, isWithinWorkHours := true,
       hasBufferTime := true } : TimeSlot).start <
      ({ start := 570, endT := 600, score := 0, conflicts := [],
         energyLevel := none, isWithinWorkHours := true,
         hasBufferTime := true } : TimeSlot).endT ∧
    ({ start := 570, endT := 600, score := 0, conflicts := [],
       energyLevel := none, isWithinWorkHours := true,
       hasBufferTime := true } : TimeSlot).endT -
      ({ start := 570, endT := 600, score := 0, conflicts := [],
         energyLevel := none, isWithinWorkHours := true,
         hasBufferTime := true } : TimeSlot).start =
      effectiveDuration ⟨1, some 30, none, false, none, none⟩ :=
  C3_amended_slot_duration.2.2 (fun _ _ _ => [])
    ⟨9, 17, [0, 1, 2, 3, 4, 5, 6], 15, []⟩ 540 [] []
    ⟨1, some 30, none, false, none, none⟩ 540 660
    [{ start := 570, endT := 600, score := 0, conflicts := [],
       energyLevel := none, isWithinWorkHours := true, hasBufferTime := true },
     { start := 600, endT := 630, score := -1, conflicts := [],
       energyLevel := none, isWithinWorkHours := true, hasBufferTime := true },
     { start := 630, endT := 660, score := -1, conflicts := [],
       energyLevel := none, isWithinWorkHours := true, hasBufferTime := true }]
    (by decide) (by decide) _ (by decide)

/-- C5: the work-hour filter keeps a candidate exactly when, in the
viewer's local time, the start weekday lies in the configured work-day
set, the start hour is at least `workHourStart`, the end hour is at most
`workHourEnd`, and the start hour is strictly below `workHourEnd`; every
kept slot is returned with `isWithinWorkHours` set to true and every other
slot is absent from the output. -/
theorem C5_work_hour_filter (st : AutoScheduleSettings)
    (slots : List TimeSlot) (r : TimeSlot) :
    (r ∈ filterByWorkHours st slots ↔
      ∃ s, s ∈ slots ∧
        getDay (toZonedTime s.start) ∈ parseWorkDays st ∧
        st.workHourStart ≤ getHours (toZonedTime s.start) ∧
        getHours (toZonedTime s.endT) ≤ st.workHourEnd ∧
        getHours (toZonedTime s.start) < st.workHourEnd ∧
        r = { s with isWithinWorkHours := true }) ∧
    (r ∈ filterByWorkHours st slots → r.isWithinWorkHours = true) := by
  constructor
  · rw [mem_filterByWorkHours]
    constructor
    · rintro ⟨s, hs, hp, hr⟩
      rcases (workHourPred_iff st s).mp hp with ⟨h1, h2, h3, h4⟩
      exact ⟨s, hs, h1, h2, h3, h4, hr⟩
    · rintro ⟨s, hs, h1, h2, h3, h4, hr⟩
      exact ⟨s, hs, (workHourPred_iff st s).mpr ⟨h1, h2, h3, h4⟩, hr⟩
  · rw [mem_filterByWorkHours]
    rintro ⟨s, _, _, hr⟩
    rw [hr]

/-- C5, witness: a Sunday 09:30–10:00 slot under work hours 9–17 with all
weekdays enabled is kept, with its flag set. -/
theorem C5_witness :
    ({ mkSlot 570 600 with isWithinWorkHours := true }) ∈
      filterByWorkHours ⟨9, 17, [0, 1, 2, 3, 4, 5, 6], 15, []⟩
        [mkSlot 570 600] :=
  (C5_work_hour_filter ⟨9, 17, [0, 1, 2, 3, 4, 5, 6], 15, []⟩
      [mkSlot 570 600] _).1.mpr
    ⟨mkSlot 570 600, by decide, by decide, by decide, by decide, by decide,
      rfl⟩

/-- C8: on the current day, when adding the 15-minute lead yields a start
whose local hour has reached `workHourEnd`, the generation start moves to
the next calendar day at `workHourStart`, minute 0 (a 30-minute-aligned
instant, so rounding keeps it), and the first generated slot starts
exactly there. -/
theorem C8_late_day_rollover (st : AutoScheduleSettings)
    (now startDate endDate dur : Int)
    (hday : sameLocalDay startDate now = true)
    (hhour : st.workHourEnd ≤
      getHours (addMinutes startDate MINIMUM_BUFFER_MINUTES))
    (hwhs0 : 0 ≤ st.workHourStart) (hwhs1 : st.workHourStart < 24)
    (hdur : 1 ≤ dur)
    (hlt : addDays (setMinutes (setHours
        (addMinutes startDate MINIMUM_BUFFER_MINUTES) st.workHourStart) 0) 1 <
      roundDateUp endDate) :
    getHours (addDays (setMinutes (setHours
        (addMinutes startDate MINIMUM_BUFFER_MINUTES) st.workHourStart) 0) 1) =
      st.workHourStart ∧
    getMinutes (addDays (setMinutes (setHours
        (addMinutes startDate MINIMUM_BUFFER_MINUTES) st.workHourStart) 0) 1) =
      0 ∧
    localDay (addDays (setMinutes (setHours
        (addMinutes startDate MINIMUM_BUFFER_MINUTES) st.workHourStart) 0) 1) =
      localDay (addMinutes startDate MINIMUM_BUFFER_MINUTES) + 1 ∧
    ∃ rest, generatePotentialSlots st now dur startDate endDate =
      some (mkSlot
        (addDays (setMinutes (setHours
          (addMinutes startDate MINIMUM_BUFFER_MINUTES) st.workHourStart) 0) 1)
        (addDays (setMinutes (setHours
          (addMinutes startDate MINIMUM_BUFFER_MINUTES) st.workHourStart) 0) 1 +
          dur) :: rest) := by
  have key : addDays (setMinutes (setHours
      (addMinutes startDate MINIMUM_BUFFER_MINUTES) st.workHourStart) 0) 1 =
      1440 * ((startDate + 15) / 1440 + 1) + 60 * st.workHourStart := by
    simp only [addDays, setMinutes, setHours, addMinutes,
      MINIMUM_BUFFER_MINUTES]
    omega
  refine ⟨?_, ?_, ?_, ?_⟩
  · rw [key]; unfold getHours; omega
  · rw [key]; unfold getMinutes; omega
  · rw [key]; unfold localDay addMinutes MINIMUM_BUFFER_MINUTES; omega
  · have hgs : generationStart st (toZonedTime startDate) (toZonedTime now) =
        addDays (setMinutes (setHours
          (addMinutes startDate MINIMUM_BUFFER_MINUTES) st.workHourStart) 0)
          1 := by
      unfold generationStart toZonedTime
      rw [if_pos hday, if_pos hhour]
    have hround : roundDateUp (addDays (setMinutes (setHours
        (addMinutes startDate MINIMUM_BUFFER_MINUTES) st.workHourStart) 0) 1) =
        addDays (setMinutes (setHours
          (addMinutes startDate MINIMUM_BUFFER_MINUTES) st.workHourStart) 0)
          1 := by
      unfold roundDateUp
      rw [if_pos]
      rw [key]
      simp
      omega
    exact generate_head st now dur startDate endDate hdur _
      (by rw [hgs, hround]) hlt

/-- C8, witness: "now" = range start = 16:50 local (minute 1010) on a
Sunday with work hours 9–17 — the first generated slot starts the next
calendar day at 09:00 local (minute 1980). -/
theorem C8_witness :
    getHours 1980 = 9 ∧ getMinutes 1980 = 0 ∧ localDay 1980 = 1 ∧
    ∃ rest, generatePotentialSlots ⟨9, 17, [0, 1, 2, 3, 4, 5, 6], 15, []⟩
        1010 30 1010 2460 = some (mkSlot 1980 2010 :: rest) := by
  have h := C8_late_day_rollover ⟨9, 17, [0, 1, 2, 3, 4, 5, 6], 15, []⟩
    1010 1010 2460 30 (by decide) (by decide) (by decide) (by decide)
    (by decide) (by decide)
  obtain ⟨h1, h2, h3, rest, hrest⟩ := h
  have e : addDays (setMinutes (setHours
      (addMinutes 1010 MINIMUM_BUFFER_MINUTES) (9 : Int)) 0) 1 = (1980 : Int) := by
    decide
  rw [e] at h1 h2 h3 hrest
  refine ⟨h1, h2, by decide, rest, ?_⟩
  rw [hrest]
  norm_num

/-- C6: a work-hour slot for which the batched query reports conflicts is
dropped by the conflict-removal stage, never reaches the buffer/scoring
stages, and no slot with its bounds appears in the final output; a slot
whose reported conflict list is empty is kept in the stage's output
unaltered. -/
theorem C6_conflict_removal (report : ConflictReport)
    (st : AutoScheduleSettings) (now : Int) (store s0 : List Task)
    (task : Task) (startDate endDate : Int) (w : List TimeSlot) (s : TimeSlot)
    (hw : workHourSlotsOf st now task startDate endDate = some w)
    (hs : s ∈ w) :
    (report s (parseSelectedCalendars st) task.id = [] →
      s ∈ (removeConflicts report st w task).1) ∧
    (report s (parseSelectedCalendars st) task.id ≠ [] →
      s ∉ (removeConflicts report st w task).1 ∧
      (∀ r ∈ applyBufferTimes st (removeConflicts report st w task).1,
        ¬(r.start = s.start ∧ r.endT = s.endT)) ∧
      (∀ l, (findAvailableSlots report st now store s0 task
          startDate endDate).slots = some l →
        ∀ r ∈ l, ¬(r.start = s.start ∧ r.endT = s.endT))) := by
  have hpair := workHourSlots_pairwise st now task startDate endDate w hw
  constructor
  · intro hrep
    rw [removeConflicts_fst, List.mem_filter]
    exact ⟨hs, by simp [hrep]⟩
  · intro hrep
    refine ⟨?_, ?_, ?_⟩
    · rw [removeConflicts_fst, List.mem_filter]
      rintro ⟨-, hemp⟩
      exact hrep (List.isEmpty_iff.mp hemp)
    · rintro r hr ⟨hstart, -⟩
      simp only [applyBufferTimes, List.mem_map] at hr
      rcases hr with ⟨u, hu, hru⟩
      rw [removeConflicts_fst, List.mem_filter] at hu
      rcases hu with ⟨huw, hemp⟩
      have hrstart : r.start = u.start := by rw [← hru]
      have hus : u = s :=
        eq_of_pairwise_start hpair huw hs (by omega)
      rw [hus] at hemp
      exact hrep (List.isEmpty_iff.mp hemp)
    · rintro l hfind r hr ⟨hstart, -⟩
      rcases mem_find_slots report st now store s0 task startDate endDate l r
        hfind hr with ⟨w2, hw2, u, hu, hrepu, hb1, -⟩
      rw [hw] at hw2
      injection hw2 with hww
      subst hww
      have hus : u = s :=
        eq_of_pairwise_start hpair hu hs (by omega)
      rw [hus] at hrepu
      exact hrep hrepu

/-- C6, witness: under a conflict report that flags exactly the 09:30–10:00
slot, that work-hour slot is dropped by the conflict-removal stage on a
concrete run. -/
theorem C6_witness :
    ({ start := 570, endT := 600, score := 0, conflicts := [],
       energyLevel := none, isWithinWorkHours := true,
       hasBufferTime := false } : TimeSlot) ∉
      (removeConflicts
        (fun sl _ _ => if sl.start == 570 then [⟨570, 600⟩] else [])
        ⟨9, 17, [0, 1, 2, 3, 4, 5, 6], 15, []⟩
        [{ start := 570, endT := 600, score := 0, conflicts := [],
           energyLevel := none, isWithinWorkHours := true,
           hasBufferTime := false },
         { start := 600, endT := 630, score := 0, conflicts := [],
           energyLevel := none, isWithinWorkHours := true,
           hasBufferTime := false },
         { start := 630, endT := 660, score := 0, conflicts := [],
           energyLevel := none, isWithinWorkHours := true,
           hasBufferTime := false }]
        ⟨1, some 30, none, false, none, none⟩).1 :=
  ((C6_conflict_removal
      (fun sl _ _ => if sl.start == 570 then [⟨570, 600⟩] else [])
      ⟨9, 17, [0, 1, 2, 3, 4, 5, 6], 15, []⟩ 540 [] []
      ⟨1, some 30, none, false, none, none⟩ 540 660
      [{ start := 570, endT := 600, score := 0, conflicts := [],
         energyLevel := none, isWithinWorkHours := true,
         hasBufferTime := false },
       { start := 600, endT := 630, score := 0, conflicts := [],
         energyLevel := none, isWithinWorkHours := true,
         hasBufferTime := false },
       { start := 630, endT := 660, score := 0, conflicts := [],
         energyLevel := none, isWithinWorkHours := true,
         hasBufferTime := false }]
      { start := 570, endT := 600, score := 0, conflicts := [],
        energyLevel := none, isWithinWorkHours := true,
        hasBufferTime := false }
      (by decide) (by decide)).2 (by decide)).1

instance : IsTotal TimeSlot (fun a b => b.score ≤ a.score) :=
  ⟨fun a b => le_total b.score a.score⟩

instance : IsTrans TimeSlot (fun a b => b.score ≤ a.score) :=
  ⟨fun _ _ _ h1 h2 => le_trans h2 h1⟩

/-- C7: the output of `sortByScore` is sorted with every earlier slot's
score at least every later slot's, it is a permutation of its input, the
sort is stable (for each score value, the slots carrying it appear in
their input order), and the pre-sort pipeline output is chronological
(strictly increasing starts), so ties resolve to the earlier slot. -/
theorem C7_sorted_stable :
    (∀ slots : List TimeSlot,
      (sortByScore slots).Pairwise (fun a b => b.score ≤ a.score)) ∧
    (∀ slots : List TimeSlot, (sortByScore slots).Perm slots) ∧
    (∀ (slots : List TimeSlot) (c : Int),
      (sortByScore slots).filter (fun r => r.score == c) =
        slots.filter (fun r => r.score == c)) ∧
    (∀ (report : ConflictReport) (st : AutoScheduleSettings) (now : Int)
      (store : List Task) (task : Task) (startDate endDate : Int)
      (w : List TimeSlot),
      workHourSlotsOf st now task startDate endDate = some w →
      (scoreSlots now (fetchScheduled store)
        (applyBufferTimes st (removeConflicts report st w task).1)
        task).Pairwise (fun a b => a.start < b.start)) := by
  refine ⟨?_, ?_, ?_, ?_⟩
  · intro slots
    exact List.sorted_insertionSort (fun a b => b.score ≤ a.score) slots
  · intro slots
    exact List.perm_insertionSort (fun a b => b.score ≤ a.score) slots
  · intro slots c
    have hpairf : (slots.filter (fun r => r.score == c)).Pairwise
        (fun a b => b.score ≤ a.score) := by
      apply List.pairwise_of_forall_mem_list
      intro a ha b hb
      have ha2 := (List.mem_filter.mp ha).2
      have hb2 := (List.mem_filter.mp hb).2
      rw [beq_iff_eq] at ha2 hb2
      omega
    have hsub : List.Sublist (slots.filter (fun r => r.score == c))
        (sortByScore slots) :=
      List.sublist_insertionSort hpairf (List.filter_sublist slots)
    have hsub2 : List.Sublist (slots.filter (fun r => r.score == c))
        ((sortByScore slots).filter (fun r => r.score == c)) := by
      have h2 := hsub.filter (fun r => r.score == c)
      rwa [List.filter_filter,
        show (fun a : TimeSlot => (a.score == c) && (a.score == c)) =
          (fun a : TimeSlot => a.score == c) from
            funext (fun a => Bool.and_self _)] at h2
    have hperm : ((sortByScore slots).filter (fun r => r.score == c)).Perm
        (slots.filter (fun r => r.score == c)) :=
      (List.perm_insertionSort _ slots).filter _
    exact (hsub2.eq_of_length hperm.length_eq.symm).symm
  · intro report st now store task startDate endDate w hw
    have hpw := workHourSlots_pairwise st now task startDate endDate w hw
    have h1 : ((removeConflicts report st w task).1).Pairwise
        (fun a b => a.start < b.start) := by
      rw [removeConflicts_fst]
      exact List.Pairwise.sublist (List.filter_sublist w) hpw
    have h2 := pairwise_start_map
      (fun slot =>
        { slot with hasBufferTime :=
            (calculateBufferTimes st slot).beforeBuffer.isWithinWorkHours &&
            (calculateBufferTimes st slot).afterBuffer.isWithinWorkHours })
      ((removeConflicts report st w task).1) (fun x => rfl) h1
    exact pairwise_start_map
      (fun slot =>
        { slot with score := scoreSlot now (fetchScheduled store) slot task })
      _ (fun x => rfl) h2

/-- C7, witness: the stability equation at a concrete list, and the
chronological pre-sort order on a concrete run. -/
theorem C7_witness :
    (sortByScore [mkSlot 0 30]).filter (fun r => r.score == 0) =
      [mkSlot 0 30].filter (fun r => r.score == 0) ∧
    (scoreSlots 540 (fetchScheduled [])
      (applyBufferTimes ⟨9, 17, [0, 1, 2, 3, 4, 5, 6], 15, []⟩
        (removeConflicts (fun _ _ _ => [])
          ⟨9, 17, [0, 1, 2, 3, 4, 5, 6], 15, []⟩
          [{ start := 570, endT := 600, score := 0, conflicts := [],
             energyLevel := none, isWithinWorkHours := true,
             hasBufferTime := false },
           { start := 600, endT := 630, score := 0, conflicts := [],
             energyLevel := none, isWithinWorkHours := true,
             hasBufferTime := false },
           { start := 630, endT := 660, score := 0, conflicts := [],
             energyLevel := none, isWithinWorkHours := true,
             hasBufferTime := false }]
          ⟨1, some 30, none, false, none, none⟩).1)
      ⟨1, some 30, none, false, none, none⟩).Pairwise
        (fun a b => a.start < b.start) :=
  ⟨C7_sorted_stable.2.2.1 [mkSlot 0 30] 0,
   C7_sorted_stable.2.2.2 (fun _ _ _ => [])
     ⟨9, 17, [0, 1, 2, 3, 4, 5, 6], 15, []⟩ 540 []
     ⟨1, some 30, none, false, none, none⟩ 540 660
     [{ start := 570, endT := 600, score := 0, conflicts := [],
        energyLevel := none, isWithinWorkHours := true,
        hasBufferTime := false },
      { start := 600, endT := 630, score := 0, conflicts := [],
        energyLevel := none, isWithinWorkHours := true,
        hasBufferTime := false },
      { start := 630, endT := 660, score := 0, conflicts := [],
        energyLevel := none, isWithinWorkHours := true,
        hasBufferTime := false }]
     (by decide)⟩

/-- C9: `calculateBufferTimes` returns a before-buffer spanning
`[slot.start - bufferMinutes, slot.start]` and an after-buffer spanning
`[slot.end, slot.end + bufferMinutes]`, each fresh (zero score, empty
conflicts, no energy level) with `isWithinWorkHours` computed by the
work-hours rule on the buffer's own interval; the buffer-tagging stage
only sets `hasBufferTime` to whether both buffers are within work hours
and removes no slot. -/
theorem C9_buffer_times (st : AutoScheduleSettings) (slot : TimeSlot)
    (slots : List TimeSlot) :
    (calculateBufferTimes st slot).beforeBuffer =
      { mkSlot (slot.start - st.bufferMinutes) slot.start with
        isWithinWorkHours := isWithinWorkHours st
          (mkSlot (slot.start - st.bufferMinutes) slot.start) } ∧
    (calculateBufferTimes st slot).afterBuffer =
      { mkSlot slot.endT (slot.endT + st.bufferMinutes) with
        isWithinWorkHours := isWithinWorkHours st
          (mkSlot slot.endT (slot.endT + st.bufferMinutes)) } ∧
    applyBufferTimes st slots = slots.map (fun s =>
      { s with hasBufferTime :=
          isWithinWorkHours st (mkSlot (s.start - st.bufferMinutes) s.start) &&
          isWithinWorkHours st (mkSlot s.endT (s.endT + st.bufferMinutes)) }) ∧
    (applyBufferTimes st slots).length = slots.length := by
  refine ⟨?_, ?_, ?_, ?_⟩
  · simp [calculateBufferTimes, mkSlot, addMinutes, Int.sub_eq_add_neg]
  · simp [calculateBufferTimes, mkSlot, addMinutes]
  · simp [applyBufferTimes, calculateBufferTimes, mkSlot, addMinutes,
      Int.sub_eq_add_neg]
  · simp [applyBufferTimes]

/-- C10: with the same conflict report, settings, current instant, task
store, task and date range, a second `findAvailableSlots` call — run from
whatever scorer state the first call left behind — returns exactly the
first call's result: the call refreshes the scorer snapshot from the store
before any use, so its output depends only on the inputs and the
snapshot. -/
theorem C10_idempotent (report : ConflictReport) (st : AutoScheduleSettings)
    (now : Int) (store s0 : List Task) (task : Task)
    (startDate endDate : Int) :
    findAvailableSlots report st now store
      (findAvailableSlots report st now store s0 task startDate
        endDate).scorerState task startDate endDate =
    findAvailableSlots report st now store s0 task startDate endDate := rfl

end Scheduling
